import Mathlib

/-!
Shallow embedding of the per-frame animation and interaction engine of the
two dreamscape scenes (the deep-sea scene in `main.js` and the dream-scene
variant).  Numeric state is modelled over `ℚ`; the transcendental functions
`Math.sin` and `Math.cos` are abstracted as function parameters, and the
external capabilities (the rigid-body integrator, the tween library, the
raycaster's intersection sort) are parameters or are modelled from their
documented contracts.
-/

namespace AbyssSpec

/-- 3-component vector (`THREE.Vector3` / `CANNON.Vec3`), over `ℚ`. -/
structure Vec3 where
  x : ℚ
  y : ℚ
  z : ℚ
deriving DecidableEq

/-- Truncation toward zero, the integer division underlying JavaScript `%`. -/
def jsTrunc (q : ℚ) : ℤ := if 0 ≤ q then ⌊q⌋ else ⌈q⌉

/-- JavaScript remainder operator `a % b`, namely `a - b * trunc (a / b)`
(the result takes the sign of the dividend `a`). -/
def jsRem (a b : ℚ) : ℚ := a - b * (jsTrunc (a / b) : ℚ)

/-- One vent-stream update of a y component, from the `animate` loop of
`main.js`: `newY = (val + deltaTime * 2) % 20`. -/
def ventStep (dt val : ℚ) : ℚ := jsRem (val + dt * 2) 20

/-- Initial y component of a vent particle: `Math.random() * 20` with the
random sample `r ∈ [0, 1)`. -/
def ventInitY (r : ℚ) : ℚ := r * 20

theorem jsRem_eq_floor_form (a : ℚ) (ha : 0 ≤ a) :
    jsRem a 20 = a - 20 * (⌊a / 20⌋ : ℚ) := by
  have hq : 0 ≤ a / 20 := by positivity
  simp [jsRem, jsTrunc, hq]

theorem jsRem_twenty_bounds (a : ℚ) (ha : 0 ≤ a) :
    0 ≤ jsRem a 20 ∧ jsRem a 20 < 20 := by
  have hq : 0 ≤ a / 20 := by positivity
  have hfr : jsRem a 20 = 20 * Int.fract (a / 20) := by
    rw [jsRem_eq_floor_form a ha, Int.fract]
    have h20 : (20 : ℚ) ≠ 0 := by norm_num
    field_simp
  constructor
  · rw [hfr]
    have := Int.fract_nonneg (a / 20)
    nlinarith
  · rw [hfr]
    have := Int.fract_lt_one (a / 20)
    nlinarith

/-- Claim C2: for every nonnegative initial y (all creation-time y values are
`Math.random() * 20 ≥ 0`) and every `dt ≥ 0`, one vent-stream update step
yields `(y + dt·2) mod 20` (mathematical modulus), which lies in `[0, 20)`,
including when the sum wraps several times past the ceiling. -/
theorem ventStep_wrap_invariant (y dt : ℚ) (hy : 0 ≤ y) (hdt : 0 ≤ dt) :
    ventStep dt y = (y + dt * 2) - 20 * (⌊(y + dt * 2) / 20⌋ : ℚ) ∧
    0 ≤ ventStep dt y ∧ ventStep dt y < 20 := by
  have ha : 0 ≤ y + dt * 2 := by nlinarith
  exact ⟨jsRem_eq_floor_form _ ha, jsRem_twenty_bounds _ ha⟩

/-- Witness for C2: `y = 19.9` (one tenth below the ceiling) and `dt = 25`,
which forces three wraps; the updated value is `9.9 ∈ [0, 20)`. -/
theorem ventStep_wrap_invariant_witness :
    (0 : ℚ) ≤ 199 / 10 ∧ (0 : ℚ) ≤ 25 ∧
    (0 ≤ ventStep 25 (199 / 10) ∧ ventStep 25 (199 / 10) < 20) ∧
    ventStep 25 (199 / 10) = 99 / 10 := by
  refine ⟨by norm_num, by norm_num,
    (ventStep_wrap_invariant (199 / 10) 25 (by norm_num) (by norm_num)).2,
    by norm_num [ventStep, jsRem, jsTrunc]⟩

/-- One frame of the swarm update from `main.js`: the live position buffer
`cur` is walked together with the immutable base buffer (`swarmPosArray`),
`i` being the running flat index.  Components with `i % 3 = 0` (x axis) are
rewritten to `basePos + sin (t + basePos) * 2`, components with `i % 3 = 1`
(y axis) to `basePos + cos (t + basePos) * 2`, and components with
`i % 3 = 2` (z axis) are left untouched.  The trig functions are passed as
parameters abstracting `Math.sin` / `Math.cos`.  The buffers have equal
length by construction; on an exhausted base the component is left as is
(the z-axis behaviour, the only one the theorems use in that case). -/
def swarmFrameAux (sin cos : ℚ → ℚ) (t : ℚ) : ℕ → List ℚ → List ℚ → List ℚ
  | _, [], _ => []
  | i, v :: vs, [] => v :: swarmFrameAux sin cos t (i + 1) vs []
  | i, v :: vs, b :: bs =>
    (if i % 3 = 0 then b + sin (t + b) * 2
     else if i % 3 = 1 then b + cos (t + b) * 2
     else v) :: swarmFrameAux sin cos t (i + 1) vs bs

/-- The stateless closed form of the swarm rule: a pure function of the
elapsed time and the base buffer alone (z components keep their base
value). -/
def swarmClosedAux (sin cos : ℚ → ℚ) (t : ℚ) : ℕ → List ℚ → List ℚ
  | _, [] => []
  | i, b :: bs =>
    (if i % 3 = 0 then b + sin (t + b) * 2
     else if i % 3 = 1 then b + cos (t + b) * 2
     else b) :: swarmClosedAux sin cos t (i + 1) bs

/-- The reachable-state invariant of the swarm buffer: the live buffer has
the base buffer's length and agrees with it on every z component
(`i % 3 = 2`), which holds at creation and is preserved by every frame. -/
def agreeZ : ℕ → List ℚ → List ℚ → Bool
  | _, [], [] => true
  | i, v :: vs, b :: bs => decide (i % 3 = 2 → v = b) && agreeZ (i + 1) vs bs
  | _, _, _ => false

/-- One frame of the vent-stream update from `main.js`: only components
with flat index `i % 3 = 1` (the y axis) are rewritten, via `ventStep`. -/
def ventFrameAux (dt : ℚ) : ℕ → List ℚ → List ℚ
  | _, [] => []
  | i, v :: vs => (if i % 3 = 1 then ventStep dt v else v) :: ventFrameAux dt (i + 1) vs

/-- State of the dream-scene river particle system (`particleMesh`): a
whole-object y rotation and the 5000-point position buffer. -/
structure RiverState where
  rotY : ℚ
  buffer : List ℚ
deriving DecidableEq

/-- One frame of the river update from the dream scene:
`particleMesh.rotation.y = elapsedTime * 0.05`; the position buffer is
never touched after creation. -/
def riverFrame (t : ℚ) (r : RiverState) : RiverState :=
  { r with rotY := t * (1 / 20) }

/-- Stand-in for `Math.sin`, probed only at `0`, where the real sine is
also `0`. -/
def sinProbe : ℚ → ℚ := fun _ => 0

/-- Stand-in for `Math.cos`, probed only at `0`, where the real cosine is
also `1`. -/
def cosProbe : ℚ → ℚ := fun _ => 1

theorem swarmFrameAux_eq_closed (sin cos : ℚ → ℚ) (t : ℚ) :
    ∀ (cur base : List ℚ) (k : ℕ), agreeZ k cur base = true →
      swarmFrameAux sin cos t k cur base = swarmClosedAux sin cos t k base := by
  intro cur
  induction cur with
  | nil =>
    intro base k h
    cases base with
    | nil => rfl
    | cons b bs => simp [agreeZ] at h
  | cons v vs ih =>
    intro base k h
    cases base with
    | nil => simp [agreeZ] at h
    | cons b bs =>
      simp only [agreeZ, Bool.and_eq_true, decide_eq_true_eq] at h
      by_cases hk : k % 3 = 2
      · simp only [swarmFrameAux, swarmClosedAux, ih bs (k + 1) h.2]
        have h0 : ¬ k % 3 = 0 := by omega
        have h1 : ¬ k % 3 = 1 := by omega
        simp [h0, h1, h.1 hk]
      · simp only [swarmFrameAux, swarmClosedAux, ih bs (k + 1) h.2]
        have h01 : k % 3 = 0 ∨ k % 3 = 1 := by omega
        rcases h01 with h0 | h1
        · simp [h0]
        · simp [h1]

theorem swarmClosedAux_agreeZ (sin cos : ℚ → ℚ) (t : ℚ) :
    ∀ (base : List ℚ) (k : ℕ),
      agreeZ k (swarmClosedAux sin cos t k base) base = true := by
  intro base
  induction base with
  | nil => intro k; rfl
  | cons b bs ih =>
    intro k
    simp only [swarmClosedAux, agreeZ, Bool.and_eq_true, decide_eq_true_eq]
    refine ⟨fun hk => ?_, ih (k + 1)⟩
    have h0 : ¬ k % 3 = 0 := by omega
    have h1 : ¬ k % 3 = 1 := by omega
    simp [h0, h1]

theorem ventFrameAux_getElem (dt : ℚ) :
    ∀ (vs : List ℚ) (k i : ℕ),
      (ventFrameAux dt k vs)[i]? =
        (vs[i]?).map (fun v => if (k + i) % 3 = 1 then ventStep dt v else v) := by
  intro vs
  induction vs with
  | nil => intro k i; simp [ventFrameAux]
  | cons v vs ih =>
    intro k i
    cases i with
    | zero => simp [ventFrameAux]
    | succ i =>
      simp only [ventFrameAux, List.getElem?_cons_succ]
      rw [ih (k + 1) i]
      have hidx : k + 1 + i = k + (i + 1) := by omega
      rw [hidx]

theorem swarmFrameAux_getElem_z (sin cos : ℚ → ℚ) (t : ℚ) :
    ∀ (cur base : List ℚ) (k i : ℕ), (k + i) % 3 = 2 →
      (swarmFrameAux sin cos t k cur base)[i]? = cur[i]? := by
  intro cur
  induction cur with
  | nil => intro base k i _; cases base <;> rfl
  | cons v vs ih =>
    intro base k i hi
    cases base with
    | nil =>
      cases i with
      | zero => simp [swarmFrameAux]
      | succ i =>
        simp only [swarmFrameAux, List.getElem?_cons_succ]
        exact ih [] (k + 1) i (by omega)
    | cons b bs =>
      cases i with
      | zero =>
        have hk : k % 3 = 2 := by omega
        have h0 : ¬ k % 3 = 0 := by omega
        have h1 : ¬ k % 3 = 1 := by omega
        simp [swarmFrameAux, h0, h1]
      | succ i =>
        simp only [swarmFrameAux, List.getElem?_cons_succ]
        exact ih bs (k + 1) i (by omega)

/-- A resolved ray intersection: the hit object's topic tag (its `name`)
and the ray-parameter distance reported by the raycaster. -/
structure Hit where
  name : String
  dist : ℚ
deriving DecidableEq

/-- First-wins running minimum over an intersection list: a later element
replaces the current best only when strictly nearer. -/
def selMin : Hit → List Hit → Hit
  | best, [] => best
  | best, x :: xs => selMin (if x.dist < best.dist then x else best) xs

/-- Modelled from the spec: `THREE.Raycaster.intersectObjects` is an
external library capability.  Per its documented behaviour (and §4.4) it
gathers intersections in registry order and stable-sorts them by ascending
distance, and the click handler takes `intersects[0]`; the head of a
stable ascending sort is the earliest-listed element of minimal distance,
modelled directly as a first-wins minimum over the candidate list. -/
def selectHit : List Hit → Option Hit
  | [] => none
  | c :: cs => some (selMin c cs)

/-- Focus metadata for a topic tag: camera look-at target position, title
and description strings. -/
structure FocusPoint where
  position : Vec3
  title : String
  description : String
deriving DecidableEq

/-- The `focusPoints` table of `main.js`, keyed by topic tag. -/
def focusPoints : String → Option FocusPoint
  | "graphics" => some ⟨⟨0, 5, 10⟩, "The Anomaly.",
      "The heart of the abyss. A creature of pure light and impossible form. It bends pixels to its will."⟩
  | "photography" => some ⟨⟨-15, 2, 10⟩, "Lost Signals.",
      "Fossilized light, imprinted on stone. Memories from another world, glowing in the dark."⟩
  | "programming" => some ⟨⟨15, 5, -5⟩, "Geysers of Logic.",
      "Structure, bubbling up from the chaos. Pure syntax given form. Luau, C++, Python... the elements of creation."⟩
  | "eating" => some ⟨⟨-20, 8, -15⟩, "The Swarm.",
      "The energy. A single, hungry mind moving as one. It consumes, it fuels, it lives."⟩
  | _ => none

/-- Modelled from the spec: an in-flight eased camera-target transition of
the gsap tween capability (an external library): start value, end value,
start time and duration.  Per §5 the interpolation is a pure function of
time since start and clamps at its end value once the duration has
elapsed. -/
structure Transition where
  source : Vec3
  target : Vec3
  t0 : ℚ
  duration : ℚ
deriving DecidableEq

/-- The click-visible output state: the two text slots and the in-flight
camera-target transition. -/
structure UIState where
  title : String
  description : String
  cam : Transition
deriving DecidableEq

/-- Linear interpolation on `ℚ`. -/
def lerpQ (a b q : ℚ) : ℚ := a + (b - a) * q

/-- Componentwise linear interpolation of vectors. -/
def lerpV (a b : Vec3) (q : ℚ) : Vec3 :=
  ⟨lerpQ a.x b.x q, lerpQ a.y b.y q, lerpQ a.z b.z q⟩

/-- Modelled from the spec: sampling the camera-target tween at time `now`
under an arbitrary easing curve `ease`; at or beyond the configured
duration the value clamps at the end value (§5). -/
def camTarget (ease : ℚ → ℚ) (tr : Transition) (now : ℚ) : Vec3 :=
  if tr.duration ≤ now - tr.t0 then tr.target
  else lerpV tr.source tr.target (ease ((now - tr.t0) / tr.duration))

/-- The click handler of `main.js`: resolve the nearest hit; if its topic
tag has a `focusPoints` entry, start a 2.5-second eased transition of
`controls.target` to the entry's position and write the title and
description in the same step; otherwise do nothing. -/
def clickHandler (cands : List Hit) (now : ℚ) (camNow : Vec3) (s : UIState) :
    UIState :=
  match selectHit cands with
  | none => s
  | some h =>
    match focusPoints h.name with
    | none => s
    | some fp =>
      { title := fp.title, description := fp.description,
        cam := { source := camNow, target := fp.position, t0 := now,
                 duration := 5 / 2 } }

theorem selMin_le (xs : List Hit) : ∀ best : Hit,
    (selMin best xs).dist ≤ best.dist ∧
      ∀ x ∈ xs, (selMin best xs).dist ≤ x.dist := by
  induction xs with
  | nil => intro best; exact ⟨le_refl _, by simp⟩
  | cons x xs ih =>
    intro best
    simp only [selMin]
    by_cases hx : x.dist < best.dist
    · rw [if_pos hx]
      rcases ih x with ⟨h1, h2⟩
      refine ⟨le_of_lt (lt_of_le_of_lt h1 hx), ?_⟩
      intro y hy
      rcases List.mem_cons.mp hy with rfl | hy
      · exact h1
      · exact h2 y hy
    · rw [if_neg hx]
      rcases ih best with ⟨h1, h2⟩
      refine ⟨h1, ?_⟩
      intro y hy
      rcases List.mem_cons.mp hy with rfl | hy
      · exact le_trans h1 (not_lt.mp hx)
      · exact h2 y hy

theorem selMin_first (xs : List Hit) : ∀ best : Hit,
    selMin best xs = best ∨
      ∃ i : ℕ, xs[i]? = some (selMin best xs) ∧
        (selMin best xs).dist < best.dist ∧
        ∀ j : ℕ, j < i → ∀ hj : Hit, xs[j]? = some hj →
          (selMin best xs).dist < hj.dist := by
  induction xs with
  | nil => intro best; exact Or.inl rfl
  | cons x xs ih =>
    intro best
    simp only [selMin]
    by_cases hx : x.dist < best.dist
    · rw [if_pos hx]
      right
      rcases ih x with heq | ⟨i, hi, hlt, hbefore⟩
      · refine ⟨0, by rw [heq]; simp, by rw [heq]; exact hx, ?_⟩
        intro j hj
        exact absurd hj (Nat.not_lt_zero j)
      · refine ⟨i + 1, by simpa using hi, lt_trans hlt hx, ?_⟩
        intro j hjlt hj hjel
        cases j with
        | zero =>
          rw [List.getElem?_cons_zero, Option.some_inj] at hjel
          rw [← hjel]
          exact hlt
        | succ j =>
          rw [List.getElem?_cons_succ] at hjel
          exact hbefore j (by omega) hj hjel
    · rw [if_neg hx]
      rcases ih best with heq | ⟨i, hi, hlt, hbefore⟩
      · exact Or.inl heq
      · right
        refine ⟨i + 1, by simpa using hi, hlt, ?_⟩
        intro j hjlt hj hjel
        cases j with
        | zero =>
          rw [List.getElem?_cons_zero, Option.some_inj] at hjel
          rw [← hjel]
          exact lt_of_lt_of_le hlt (not_lt.mp hx)
        | succ j =>
          rw [List.getElem?_cons_succ] at hjel
          exact hbefore j (by omega) hj hjel

/-- Claim C4: the selected hit has minimal ray-parameter distance among
all intersections, and it occurs at an index before which every candidate
is strictly farther — so on an exact distance tie the first-registered
object wins. -/
theorem nearest_hit_first_registered (cands : List Hit) (h : Hit)
    (hsel : selectHit cands = some h) :
    (∀ x ∈ cands, h.dist ≤ x.dist) ∧
    ∃ i : ℕ, cands[i]? = some h ∧
      ∀ j : ℕ, j < i → ∀ hj : Hit, cands[j]? = some hj → h.dist < hj.dist := by
  cases cands with
  | nil => simp [selectHit] at hsel
  | cons c cs =>
    simp only [selectHit, Option.some_inj] at hsel
    subst hsel
    constructor
    · intro x hx
      rcases List.mem_cons.mp hx with hx1 | hx1
      · rw [hx1]
        exact (selMin_le cs c).1
      · exact (selMin_le cs c).2 x hx1
    · rcases selMin_first cs c with heq | ⟨i, hi, hlt, hbefore⟩
      · refine ⟨0, by rw [heq]; simp, ?_⟩
        intro j hj
        exact absurd hj (Nat.not_lt_zero j)
      · refine ⟨i + 1, by simpa using hi, ?_⟩
        intro j hjlt hj hjel
        cases j with
        | zero =>
          rw [List.getElem?_cons_zero, Option.some_inj] at hjel
          rw [← hjel]
          exact hlt
        | succ j =>
          rw [List.getElem?_cons_succ] at hjel
          exact hbefore j (by omega) hj hjel

/-- Witness for C4: two hits at the same distance; the first-registered
one is selected, and its distance is minimal. -/
theorem nearest_hit_first_registered_witness :
    selectHit [Hit.mk "a" 5, Hit.mk "b" 5] = some (Hit.mk "a" 5) ∧
    (Hit.mk "a" 5).dist ≤ (Hit.mk "b" 5).dist :=
  ⟨by decide,
    (nearest_hit_first_registered [Hit.mk "a" 5, Hit.mk "b" 5] (Hit.mk "a" 5)
        (by decide)).1 (Hit.mk "b" 5) (by simp)⟩

/-- Claim C3: a click whose resolved hit's topic tag is present in the
`focusPoints` table writes the FocusPoint's title and description in the
same step that starts the bounded (2.5 s) eased camera-target transition —
at transition start, not at its end — and once the configured duration has
elapsed the sampled camera target equals the FocusPoint position, for any
easing curve. -/
theorem click_focus_transition (cands : List Hit) (h : Hit) (fp : FocusPoint)
    (now : ℚ) (camNow : Vec3) (s : UIState)
    (hsel : selectHit cands = some h) (hfp : focusPoints h.name = some fp) :
    (clickHandler cands now camNow s).title = fp.title ∧
    (clickHandler cands now camNow s).description = fp.description ∧
    (clickHandler cands now camNow s).cam.t0 = now ∧
    (clickHandler cands now camNow s).cam.duration = 5 / 2 ∧
    ∀ (ease : ℚ → ℚ) (u : ℚ), now + 5 / 2 ≤ u →
      camTarget ease (clickHandler cands now camNow s).cam u = fp.position := by
  have hc : clickHandler cands now camNow s =
      ⟨fp.title, fp.description, ⟨camNow, fp.position, now, 5 / 2⟩⟩ := by
    simp [clickHandler, hsel, hfp]
  rw [hc]
  refine ⟨rfl, rfl, rfl, rfl, ?_⟩
  intro ease u hu
  simp only [camTarget]
  rw [if_pos (by linarith : (5 / 2 : ℚ) ≤ u - now)]

/-- Witness for C3: the end-to-end "graphics" scenario of §8 — a click
resolving to the jellyfish writes the literal title and description for
the "graphics" topic, and at the end of the 2.5 s transition the camera
target is the configured position `(0, 5, 10)`. -/
theorem click_focus_transition_witness :
    (clickHandler [Hit.mk "graphics" 10] 0 ⟨0, 2, 0⟩
        ⟨"", "", ⟨⟨0, 2, 0⟩, ⟨0, 2, 0⟩, 0, 1⟩⟩).title = "The Anomaly." ∧
    (clickHandler [Hit.mk "graphics" 10] 0 ⟨0, 2, 0⟩
        ⟨"", "", ⟨⟨0, 2, 0⟩, ⟨0, 2, 0⟩, 0, 1⟩⟩).description =
      "The heart of the abyss. A creature of pure light and impossible form. It bends pixels to its will." ∧
    (clickHandler [Hit.mk "graphics" 10] 0 ⟨0, 2, 0⟩
        ⟨"", "", ⟨⟨0, 2, 0⟩, ⟨0, 2, 0⟩, 0, 1⟩⟩).cam.t0 = 0 ∧
    camTarget (fun q => q)
      (clickHandler [Hit.mk "graphics" 10] 0 ⟨0, 2, 0⟩
        ⟨"", "", ⟨⟨0, 2, 0⟩, ⟨0, 2, 0⟩, 0, 1⟩⟩).cam (5 / 2) = ⟨0, 5, 10⟩ := by
  have T := click_focus_transition [Hit.mk "graphics" 10] (Hit.mk "graphics" 10)
    ⟨⟨0, 5, 10⟩, "The Anomaly.",
      "The heart of the abyss. A creature of pure light and impossible form. It bends pixels to its will."⟩
    0 ⟨0, 2, 0⟩ ⟨"", "", ⟨⟨0, 2, 0⟩, ⟨0, 2, 0⟩, 0, 1⟩⟩ rfl rfl
  exact ⟨T.1, T.2.1, T.2.2.1, T.2.2.2.2 (fun q => q) (5 / 2) (by norm_num)⟩

/-- Claim C5: a click whose resolved hit's topic tag has no `focusPoints`
entry is a no-op — the handler returns the state unchanged (title,
description and camera transition untouched); being a total function of
its inputs, the frame loop cannot crash on it. -/
theorem click_unknown_topic_noop (cands : List Hit) (h : Hit)
    (now : ℚ) (camNow : Vec3) (s : UIState)
    (hsel : selectHit cands = some h) (hfp : focusPoints h.name = none) :
    clickHandler cands now camNow s = s := by
  simp [clickHandler, hsel, hfp]

/-- Witness for C5: a click on an object mistagged "decoration" leaves the
concrete state unchanged. -/
theorem click_unknown_topic_noop_witness :
    clickHandler [Hit.mk "decoration" 1] 0 ⟨0, 0, 0⟩
        ⟨"t", "d", ⟨⟨0, 0, 0⟩, ⟨0, 0, 0⟩, 0, 1⟩⟩ =
      ⟨"t", "d", ⟨⟨0, 0, 0⟩, ⟨0, 0, 0⟩, 0, 1⟩⟩ :=
  click_unknown_topic_noop [Hit.mk "decoration" 1] (Hit.mk "decoration" 1) 0
    ⟨0, 0, 0⟩ ⟨"t", "d", ⟨⟨0, 0, 0⟩, ⟨0, 0, 0⟩, 0, 1⟩⟩ rfl rfl

/-- Claim C1, counterexample: the claim says the swarm rule rewrites the z
component to `base + cos (t + base) * 2`.  At `t = 0` on the buffer
`[0, 0, 0]` (one point, base = live), the frame leaves the z component
(flat index 2) at `0`, while the claimed formula gives
`0 + cos (0 + 0) * 2 = 2` (the real cosine also satisfies `cos 0 = 1`),
so the z component is not rewritten by the cosine formula — the cosine
goes to the y component (flat index 1) instead. -/
theorem swarm_z_component_not_cos_rewritten :
    (swarmFrameAux sinProbe cosProbe 0 0 [0, 0, 0] [0, 0, 0])[2]? = some 0 ∧
    (0 : ℚ) + cosProbe (0 + 0) * 2 = 2 ∧ ((0 : ℚ) ≠ 2) :=
  ⟨by decide, by norm_num [cosProbe], by norm_num⟩

/-- Claim C1, amended: for every frame and particle index, the swarm field
recomputes x (axis 0) as `base + sin (t + base) * 2` and y (axis 1) as
`base + cos (t + base) * 2` statelessly from the elapsed time and base
buffer, leaving z components at their base values, so on every reachable
live buffer (characterised by `agreeZ`) the output equals a closed form of
`t` and the base buffer alone — no accumulation across frames — and the
invariant is preserved; the river field's buffer is never recomputed at
all (only the whole-object rotation changes). -/
theorem swarm_buffer_pure_function_of_time_and_base
    (sin cos : ℚ → ℚ) (t : ℚ) (cur base : List ℚ) (rst : RiverState)
    (h : agreeZ 0 cur base = true) :
    swarmFrameAux sin cos t 0 cur base = swarmClosedAux sin cos t 0 base ∧
    agreeZ 0 (swarmFrameAux sin cos t 0 cur base) base = true ∧
    (riverFrame t rst).buffer = rst.buffer := by
  refine ⟨swarmFrameAux_eq_closed sin cos t cur base 0 h, ?_, rfl⟩
  rw [swarmFrameAux_eq_closed sin cos t cur base 0 h]
  exact swarmClosedAux_agreeZ sin cos t base 0

/-- Witness for the amended C1 at a concrete buffer. -/
theorem swarm_buffer_pure_function_witness :
    agreeZ 0 [1, 2, 3] [1, 2, 3] = true ∧
    (swarmFrameAux (fun _ => 0) (fun _ => 1) 1 0 [1, 2, 3] [1, 2, 3] =
        swarmClosedAux (fun _ => 0) (fun _ => 1) 1 0 [1, 2, 3] ∧
      agreeZ 0 (swarmFrameAux (fun _ => 0) (fun _ => 1) 1 0 [1, 2, 3] [1, 2, 3])
        [1, 2, 3] = true ∧
      (riverFrame 1 ⟨0, [7]⟩).buffer = RiverState.buffer ⟨0, [7]⟩) :=
  ⟨by decide,
    swarm_buffer_pure_function_of_time_and_base (fun _ => 0) (fun _ => 1) 1
      [1, 2, 3] [1, 2, 3] ⟨0, [7]⟩ (by decide)⟩

/-- Claim C6: the sine/cosine particle update is deterministic — equal
elapsed times and equal (live and base) buffers produce equal output
buffers, for any interpretation of the trig functions. -/
theorem swarm_update_two_run_deterministic
    (sin cos : ℚ → ℚ) (t1 t2 : ℚ) (c1 c2 b1 b2 : List ℚ)
    (ht : t1 = t2) (hc : c1 = c2) (hb : b1 = b2) :
    swarmFrameAux sin cos t1 0 c1 b1 = swarmFrameAux sin cos t2 0 c2 b2 := by
  rw [ht, hc, hb]

/-- Witness for C6 at a concrete time and buffer. -/
theorem swarm_update_two_run_deterministic_witness :
    (1 : ℚ) = 1 ∧
    swarmFrameAux (fun _ => 0) (fun _ => 1) 1 0 [1, 2, 3] [1, 2, 3] =
      swarmFrameAux (fun _ => 0) (fun _ => 1) 1 0 [1, 2, 3] [1, 2, 3] :=
  ⟨rfl,
    swarm_update_two_run_deterministic (fun _ => 0) (fun _ => 1) 1 1
      [1, 2, 3] [1, 2, 3] [1, 2, 3] [1, 2, 3] rfl rfl rfl⟩

/-- Claim C10: components a field's rule does not write keep their values
across a frame: the vent field rewrites only indices with `i % 3 = 1`, the
swarm field leaves indices with `i % 3 = 2` (z axis) untouched, and the
dream-scene river buffer is never mutated at all. -/
theorem unwritten_components_keep_creation_values
    (dt t : ℚ) (sin cos : ℚ → ℚ) (vent cur base : List ℚ) (rst : RiverState)
    (i j : ℕ) (hi : i % 3 ≠ 1) (hj : j % 3 = 2) :
    (ventFrameAux dt 0 vent)[i]? = vent[i]? ∧
    (swarmFrameAux sin cos t 0 cur base)[j]? = cur[j]? ∧
    (riverFrame t rst).buffer = rst.buffer := by
  refine ⟨?_, swarmFrameAux_getElem_z sin cos t cur base 0 j (by omega), rfl⟩
  rw [ventFrameAux_getElem]
  simp only [Nat.zero_add]
  cases hv : vent[i]? with
  | none => rfl
  | some v => simp [hi]

/-- Witness for C10 at concrete buffers and indices. -/
theorem unwritten_components_keep_creation_values_witness :
    (0 % 3 ≠ 1) ∧ (2 % 3 = 2) ∧
    ((ventFrameAux 1 0 [1, 2, 3])[0]? = [(1 : ℚ), 2, 3][0]? ∧
      (swarmFrameAux (fun _ => 0) (fun _ => 1) 1 0 [1, 2, 3] [4, 5, 6])[2]?
        = [(1 : ℚ), 2, 3][2]? ∧
      (riverFrame 1 ⟨0, [7]⟩).buffer = RiverState.buffer ⟨0, [7]⟩) :=
  ⟨by decide, by decide,
    unwritten_components_keep_creation_values 1 1 (fun _ => 0) (fun _ => 1)
      [1, 2, 3] [1, 2, 3] [4, 5, 6] ⟨0, [7]⟩ 0 2 (by decide) (by decide)⟩

/-- Per-material mutable uniform set captured from the compiled shader
(`material.userData.shader.uniforms`): here just the `uTime` scalar. -/
structure ShaderState where
  uTime : ℚ
deriving DecidableEq

/-- A shader-bearing material: `shader` is `none` until the compile
callback (`onBeforeCompile`, run by the external renderer once the
program is ready) stores the handle on the material. -/
structure Material where
  shader : Option ShaderState
deriving DecidableEq

/-- The per-frame shader-animator step from `animate`: the handle is
checked, and only when present is the elapsed time written into the time
uniform. -/
def shaderTick (elapsed : ℚ) (m : Material) : Material :=
  match m.shader with
  | none => m
  | some _ => { shader := some { uTime := elapsed } }

/-- Claim C7: a frame on which the material's shader handle is not yet
available leaves the material untouched (the uniform update is skipped;
the step is a total function, so nothing is raised) and the next frame
behaves as if the skipped frame had never run (the check is simply
retried); once the handle is present, every frame writes the current
elapsed time into the time uniform, including every subsequent frame. -/
theorem shader_tick_skip_or_write (t u : ℚ) (m : Material) :
    (m.shader = none →
      shaderTick t m = m ∧ shaderTick u (shaderTick t m) = shaderTick u m) ∧
    (∀ s : ShaderState, m.shader = some s →
      (shaderTick t m).shader = some ⟨t⟩ ∧
      (shaderTick u (shaderTick t m)).shader = some ⟨u⟩) := by
  constructor
  · intro h
    simp [shaderTick, h]
  · intro s h
    simp [shaderTick, h]

/-- Witness for C7: a material with no handle is left untouched at `t = 3`;
a material with a captured handle gets `uTime = 3` written. -/
theorem shader_tick_skip_or_write_witness :
    shaderTick 3 ⟨none⟩ = ⟨none⟩ ∧
    (shaderTick 3 ⟨some ⟨0⟩⟩).shader = some ⟨3⟩ :=
  ⟨((shader_tick_skip_or_write 3 4 ⟨none⟩).1 rfl).1,
    ((shader_tick_skip_or_write 3 4 ⟨some ⟨0⟩⟩).2 ⟨0⟩ rfl).1⟩

/-- Modelled from the spec: the per-object glow tween state of the gsap
capability (an external library): the intensity at the last retarget, the
target intensity, and the retarget time.  Per §5 the eased value is a pure
function of time since the retarget and clamps at the target once the
1-second duration has elapsed; re-invoking the tween with an unchanged
target leaves the transition as is, while a changed target restarts it
from the current value (overwrite-on-retrigger). -/
structure Glow where
  start : ℚ
  target : ℚ
  t0 : ℚ
deriving DecidableEq

/-- The hover target intensity from `animate`: `isHovered ? 0.7 : 0`. -/
def glowTarget (hovered : Bool) : ℚ := if hovered then 7 / 10 else 0

/-- Sampled glow intensity at time `now` under easing curve `ease`,
clamping at the target once the 1-second duration has elapsed. -/
def glowValue (ease : ℚ → ℚ) (g : Glow) (now : ℚ) : ℚ :=
  if 1 ≤ now - g.t0 then g.target
  else lerpQ g.start g.target (ease (now - g.t0))

/-- The per-frame hover pass of `animate` for one "photography"-tagged
object: ease the material's `emissiveIntensity` toward `0.7` while the
pointer ray intersects the object and toward `0` while it does not, with
a 1-second duration.  The pass reads only the hover flag and the tween
state — no click or camera-transition state. -/
def glowFrame (hovered : Bool) (now : ℚ) (ease : ℚ → ℚ) (g : Glow) : Glow :=
  if glowTarget hovered = g.target then g
  else { start := glowValue ease g now, target := glowTarget hovered, t0 := now }

/-- Claim C9: each frame the glow of a "photography" object is eased
toward `0.7` while the pointer ray intersects it and toward `0` while it
does not (the post-frame tween target is exactly `glowTarget hovered`,
and the pass takes no click/camera state as input, so it is independent
of any click-driven transition); while the hover state persists further
frames leave the tween unchanged, and one second after the frame the
sampled intensity equals the target — holding on the object for ≥ 1 s
yields `0.7`, holding off it for ≥ 1 s returns `0`. -/
theorem photography_hover_glow (hovered : Bool) (now : ℚ) (ease : ℚ → ℚ)
    (g : Glow) (hg : g.t0 ≤ now) :
    (glowFrame hovered now ease g).target = glowTarget hovered ∧
    (glowFrame hovered now ease g).t0 ≤ now ∧
    (∀ u : ℚ, glowFrame hovered u ease (glowFrame hovered now ease g) =
      glowFrame hovered now ease g) ∧
    ∀ u : ℚ, now + 1 ≤ u →
      glowValue ease (glowFrame hovered now ease g) u = glowTarget hovered := by
  by_cases h : glowTarget hovered = g.target
  · have hfg : glowFrame hovered now ease g = g := by simp [glowFrame, h]
    rw [hfg]
    refine ⟨h.symm, hg, ?_, ?_⟩
    · intro u
      simp [glowFrame, h]
    · intro u hu
      have h1 : (1 : ℚ) ≤ u - g.t0 := by linarith
      unfold glowValue
      rw [if_pos h1]
      exact h.symm
  · have hfg : glowFrame hovered now ease g =
        ⟨glowValue ease g now, glowTarget hovered, now⟩ := by
      simp [glowFrame, h]
    rw [hfg]
    refine ⟨rfl, le_refl now, ?_, ?_⟩
    · intro u
      simp [glowFrame]
    · intro u hu
      have h1 : (1 : ℚ) ≤ u - now := by linarith
      unfold glowValue
      rw [if_pos h1]

/-- Witness for C9: pointer moves onto the object at `now = 5` with the
glow fully off; one second later the sampled intensity is the hovered
target `0.7`, and an intermediate hovered frame at `now = 6` changes
nothing. -/
theorem photography_hover_glow_witness :
    (glowFrame true 5 (fun q => q) ⟨0, 0, 0⟩).target = glowTarget true ∧
    (glowFrame true 5 (fun q => q) ⟨0, 0, 0⟩).t0 ≤ 5 ∧
    glowFrame true 6 (fun q => q) (glowFrame true 5 (fun q => q) ⟨0, 0, 0⟩) =
      glowFrame true 5 (fun q => q) ⟨0, 0, 0⟩ ∧
    glowValue (fun q => q) (glowFrame true 5 (fun q => q) ⟨0, 0, 0⟩) 6 =
      glowTarget true := by
  have T := photography_hover_glow true 5 (fun q => q) ⟨0, 0, 0⟩ (by norm_num)
  exact ⟨T.1, T.2.1, T.2.2.1 6, T.2.2.2 6 (by norm_num)⟩

/-- Quaternion orientation (`CANNON.Quaternion` / `THREE.Quaternion`). -/
structure Quat where
  x : ℚ
  y : ℚ
  z : ℚ
  w : ℚ
deriving DecidableEq

/-- Cross product of two vectors. -/
def cross (a b : Vec3) : Vec3 :=
  ⟨a.y * b.z - a.z * b.y, a.z * b.x - a.x * b.z, a.x * b.y - a.y * b.x⟩

/-- Componentwise vector sum. -/
def vadd (a b : Vec3) : Vec3 := ⟨a.x + b.x, a.y + b.y, a.z + b.z⟩

/-- A rigid body of the physics world (`CANNON.Body`): pose plus the force
and torque accumulators of the current step. -/
structure Body where
  position : Vec3
  quaternion : Quat
  force : Vec3
  torque : Vec3
deriving DecidableEq

/-- `CANNON.Body.applyForce(force, relativePoint)` of cannon-es: adds the
force to the body's force accumulator and `relativePoint × force` to its
torque accumulator.  `relativePoint` is an offset from the body's center
of mass, so only `relativePoint = 0` applies the force at the center. -/
def applyForce (b : Body) (f relativePoint : Vec3) : Body :=
  { b with force := vadd b.force f,
           torque := vadd b.torque (cross relativePoint f) }

/-- The per-frame drift force of the dream scene: each axis is
`(Math.random() - 0.5) * 0.1` with the random sample in `[0, 1)`. -/
def driftForce (r : ℚ × ℚ × ℚ) : Vec3 :=
  ⟨(r.1 - 1 / 2) * (1 / 10), (r.2.1 - 1 / 2) * (1 / 10),
    (r.2.2 - 1 / 2) * (1 / 10)⟩

/-- The drift application exactly as the dream scene's `animate` loop
writes it: `obj.body.applyForce(new CANNON.Vec3(...), obj.body.position)`
— the body's own position is passed as the relative point. -/
def driftStep (r : ℚ × ℚ × ℚ) (b : Body) : Body :=
  applyForce b (driftForce r) b.position

/-- A visual transform (`mesh.position` / `mesh.quaternion`). -/
structure Pose where
  position : Vec3
  quaternion : Quat
deriving DecidableEq

/-- One entry of `objectsToUpdate`: the visual transform and its linked
body. -/
structure PhysObj where
  mesh : Pose
  body : Body
deriving DecidableEq

/-- The copy-then-drift tail of the dream-scene frame, applied to the
stepped body list with `rnd` giving each body's random drift samples:
first every body's position and quaternion are copied into its mesh, then
the drift force is applied to the body. -/
def syncDrift (rnd : ℕ → ℚ × ℚ × ℚ) : ℕ → List Body → List PhysObj
  | _, [] => []
  | i, b :: bs =>
    { mesh := ⟨b.position, b.quaternion⟩, body := driftStep (rnd i) b } ::
      syncDrift rnd (i + 1) bs

/-- One frame of the physics bridge: `physicsWorld.step(1/60, dt, 3)` (the
integrator, an external capability passed as `step`), then the body →
mesh copy, then the per-body drift-force application, in the loop's
order. -/
def physicsFrame (step : List Body → List Body) (rnd : ℕ → ℚ × ℚ × ℚ)
    (objs : List PhysObj) : List PhysObj :=
  syncDrift rnd 0 (step (objs.map PhysObj.body))

theorem syncDrift_getElem (rnd : ℕ → ℚ × ℚ × ℚ) :
    ∀ (bs : List Body) (k i : ℕ),
      (syncDrift rnd k bs)[i]? =
        (bs[i]?).map (fun b =>
          { mesh := ⟨b.position, b.quaternion⟩,
            body := driftStep (rnd (k + i)) b }) := by
  intro bs
  induction bs with
  | nil => intro k i; simp [syncDrift]
  | cons b bs ih =>
    intro k i
    cases i with
    | zero => simp [syncDrift]
    | succ i =>
      simp only [syncDrift, List.getElem?_cons_succ]
      rw [ih (k + 1) i]
      have hidx : k + 1 + i = k + (i + 1) := by omega
      rw [hidx]

/-- A concrete glass-pane body at world position `(10, 0, 0)` with cleared
force and torque accumulators. -/
def paneBody : Body :=
  { position := ⟨10, 0, 0⟩, quaternion := ⟨0, 0, 0, 1⟩,
    force := ⟨0, 0, 0⟩, torque := ⟨0, 0, 0⟩ }

/-- A concrete `objectsToUpdate` entry wrapping `paneBody`. -/
def paneObj : PhysObj := ⟨⟨⟨0, 0, 0⟩, ⟨0, 0, 0, 1⟩⟩, paneBody⟩

/-- Claim C8, counterexample: the drift force is not applied at the body's
center.  `applyForce` is called with the body's position as cannon-es's
`relativePoint`, so the body at `(10, 0, 0)`, under the drift sample
`(1/2, 3/4, 1/2)` giving force `(0, 1/40, 0)`, picks up torque
`(0, 0, 1/4)` — while an application at the center (`relativePoint = 0`)
would leave the torque at zero. -/
theorem drift_not_at_center :
    (driftStep (1 / 2, 3 / 4, 1 / 2) paneBody).torque = ⟨0, 0, 1 / 4⟩ ∧
    (applyForce paneBody (driftForce (1 / 2, 3 / 4, 1 / 2)) ⟨0, 0, 0⟩).torque
      = ⟨0, 0, 0⟩ ∧
    (⟨0, 0, 1 / 4⟩ : Vec3) ≠ ⟨0, 0, 0⟩ := by
  refine ⟨?_, ?_, ?_⟩
  · norm_num [driftStep, applyForce, driftForce, cross, vadd, paneBody,
      Vec3.mk.injEq]
  · norm_num [applyForce, driftForce, cross, vadd, paneBody, Vec3.mk.injEq]
  · norm_num [Vec3.mk.injEq]

/-- Claim C8, amended: on every frame tick, after the integrator step each
body's position and orientation are copied into its mesh, and the drift
force — each axis `(r - 1/2)/10 ∈ [-1/20, 1/20)` for random samples
`r ∈ [0, 1)` — is applied to every body with the body's own position as
the relative point, adding torque `position × force` (not a central
force); within the tick the copy precedes that tick's force application,
and the sync is strictly one-way: the frame's output is a function of the
input bodies alone, so mesh edits never feed back into body state. -/
theorem physics_frame_drift_and_sync (step : List Body → List Body)
    (rnd : ℕ → ℚ × ℚ × ℚ) (objs objs2 : List PhysObj) (i : ℕ) (b : Body)
    (r : ℚ × ℚ × ℚ)
    (hr : 0 ≤ r.1 ∧ r.1 < 1 ∧ 0 ≤ r.2.1 ∧ r.2.1 < 1 ∧ 0 ≤ r.2.2 ∧ r.2.2 < 1)
    (hstep : (step (objs.map PhysObj.body))[i]? = some b)
    (hbodies : objs.map PhysObj.body = objs2.map PhysObj.body) :
    (physicsFrame step rnd objs)[i]? =
      some ⟨⟨b.position, b.quaternion⟩, driftStep (rnd i) b⟩ ∧
    ((-(1 / 20) ≤ (driftForce r).x ∧ (driftForce r).x < 1 / 20) ∧
      (-(1 / 20) ≤ (driftForce r).y ∧ (driftForce r).y < 1 / 20) ∧
      (-(1 / 20) ≤ (driftForce r).z ∧ (driftForce r).z < 1 / 20)) ∧
    (driftStep r b).torque = vadd b.torque (cross b.position (driftForce r)) ∧
    (driftStep r b).force = vadd b.force (driftForce r) ∧
    physicsFrame step rnd objs = physicsFrame step rnd objs2 := by
  obtain ⟨h1, h2, h3, h4, h5, h6⟩ := hr
  refine ⟨?_, ⟨⟨?_, ?_⟩, ⟨?_, ?_⟩, ⟨?_, ?_⟩⟩, rfl, rfl, ?_⟩
  · rw [physicsFrame, syncDrift_getElem rnd _ 0 i, hstep]
    simp
  · simp only [driftForce]
    linarith
  · simp only [driftForce]
    linarith
  · simp only [driftForce]
    linarith
  · simp only [driftForce]
    linarith
  · simp only [driftForce]
    linarith
  · simp only [driftForce]
    linarith
  · rw [physicsFrame, physicsFrame, hbodies]

/-- Witness for C8 (amended) on a single concrete pane object, the
identity integrator and the constant random sample `1/2`. -/
theorem physics_frame_drift_and_sync_witness :
    ((id ([paneObj].map PhysObj.body))[0]? = some paneBody) ∧
    ((physicsFrame id (fun _ => (1 / 2, 1 / 2, 1 / 2)) [paneObj])[0]? =
      some ⟨⟨paneBody.position, paneBody.quaternion⟩,
        driftStep (1 / 2, 1 / 2, 1 / 2) paneBody⟩ ∧
      (driftStep (1 / 2, 1 / 2, 1 / 2) paneBody).torque =
        vadd paneBody.torque
          (cross paneBody.position (driftForce (1 / 2, 1 / 2, 1 / 2))) ∧
      physicsFrame id (fun _ => (1 / 2, 1 / 2, 1 / 2)) [paneObj] =
        physicsFrame id (fun _ => (1 / 2, 1 / 2, 1 / 2)) [paneObj]) := by
  have T := physics_frame_drift_and_sync id (fun _ => (1 / 2, 1 / 2, 1 / 2))
    [paneObj] [paneObj] 0 paneBody (1 / 2, 1 / 2, 1 / 2)
    (by norm_num) (by decide) rfl
  exact ⟨by decide, T.1, T.2.2.1, T.2.2.2.2⟩

end AbyssSpec
